import Mathlib

/-!
Verification of the change-detection and archival script `src/run.py` of the
habbo-origins-update-tracker repository.

The script is shallowly embedded as pure Lean functions:

* bytes are `List Nat` (each element a byte value),
* `hashlib.sha256(...).hexdigest()` is implemented in full as `sha256hex`,
* the filesystem (current-snapshot files, historical directory, README index)
  is an explicit `FsState` record threaded through `save_response`,
* side effects (HTTP GETs, file writes, `print` diagnostics) are recorded in an
  explicit `Event` trace,
* Python library calls whose behaviour is not part of this repository
  (`json.loads`/`json.dumps`, `datetime.strptime`, `bytes.decode`) are passed
  in as explicit function parameters in an `Env` record, with `Option`/sum
  results modelling the exceptions the script handles or propagates,
* a raised, uncaught Python exception is the `SaveResult.error` constructor,
  which carries the filesystem state and event trace at the moment of raising.
-/

/-! ## Bytes and byte-string helpers -/

/-- ASCII whitespace bytes removed by Python's `bytes.strip()`:
space, tab, newline, carriage return, vertical tab, form feed. -/
def isSpaceByte (b : Nat) : Bool :=
  b = 32 || b = 9 || b = 10 || b = 13 || b = 11 || b = 12

/-- `bytes.strip()`: drop leading and trailing ASCII whitespace. -/
def stripBytes (l : List Nat) : List Nat :=
  ((l.dropWhile isSpaceByte).reverse.dropWhile isSpaceByte).reverse

/-- Split a byte string on the newline byte 10, like `content.split(b'\n')`.
Like Python, the result always has one more piece than there are newlines
(so `b""` splits to `[b""]`, and a trailing newline yields a trailing `b""`). -/
def splitBytes : List Nat → List (List Nat)
  | [] => [[]]
  | b :: bs =>
    if b = 10 then [] :: splitBytes bs
    else
      match splitBytes bs with
      | [] => [[b]]
      | h :: t => (b :: h) :: t

/-- Bytes of a Lean string whose characters are all ASCII. -/
def asciiBytes (s : String) : List Nat := s.toList.map Char.toNat

/-! ## SHA-256 (`hashlib.sha256(content).hexdigest()`)

A direct implementation of FIPS 180-4 SHA-256 on byte lists, with 32-bit
words represented as `Nat` reduced `% 2 ^ 32`. -/

/-- Right rotation of a 32-bit word. -/
def rotr32 (n x : Nat) : Nat :=
  ((x >>> n) ||| (x <<< (32 - n))) % 2 ^ 32

def sigma0 (x : Nat) : Nat := (rotr32 7 x) ^^^ (rotr32 18 x) ^^^ (x >>> 3)

def sigma1 (x : Nat) : Nat := (rotr32 17 x) ^^^ (rotr32 19 x) ^^^ (x >>> 10)

def bigSigma0 (x : Nat) : Nat := (rotr32 2 x) ^^^ (rotr32 13 x) ^^^ (rotr32 22 x)

def bigSigma1 (x : Nat) : Nat := (rotr32 6 x) ^^^ (rotr32 11 x) ^^^ (rotr32 25 x)

def shaCh (x y z : Nat) : Nat := (x &&& y) ^^^ ((x ^^^ (2 ^ 32 - 1)) &&& z)

def shaMaj (x y z : Nat) : Nat := (x &&& y) ^^^ (x &&& z) ^^^ (y &&& z)

/-- The 64 SHA-256 round constants of FIPS 180-4 (decimal). -/
def shaK : List Nat :=
  [1116352408, 1899447441, 3049323471, 3921009573, 961987163, 1508970993,
   2453635748, 2870763221, 3624381080, 310598401, 607225278, 1426881987,
   1925078388, 2162078206, 2614888103, 3248222580, 3835390401, 4022224774,
   264347078, 604807628, 770255983, 1249150122, 1555081692, 1996064986,
   2554220882, 2821834349, 2952996808, 3210313671, 3336571891, 3584528711,
   113926993, 338241895, 666307205, 773529912, 1294757372, 1396182291,
   1695183700, 1986661051, 2177026350, 2456956037, 2730485921, 2820302411,
   3259730800, 3345764771, 3516065817, 3600352804, 4094571909, 275423344,
   430227734, 506948616, 659060556, 883997877, 958139571, 1322822218,
   1537002063, 1747873779, 1955562222, 2024104815, 2227730452, 2361852424,
   2428436474, 2756734187, 3204031479, 3329325298]

/-- Working state of the compression function (eight 32-bit words). -/
structure Hash8 where
  a : Nat
  b : Nat
  c : Nat
  d : Nat
  e : Nat
  f : Nat
  g : Nat
  h : Nat
deriving DecidableEq, Repr

/-- The SHA-256 initial hash value of FIPS 180-4 (decimal). -/
def shaH0 : Hash8 :=
  ⟨1779033703, 3144134277, 1013904242, 2773480762,
   1359893119, 2600822924, 528734635, 1541459225⟩

/-- Big-endian byte encoding of `n` in `w` bytes. -/
def beBytes (w n : Nat) : List Nat :=
  (List.range w).map (fun i => (n >>> (8 * (w - 1 - i))) % 256)

/-- SHA-256 message padding: append `0x80`, zero bytes to reach 56 mod 64,
then the bit length as 8 big-endian bytes. -/
def sha256pad (msg : List Nat) : List Nat :=
  msg ++ 128 :: List.replicate ((119 - msg.length % 64) % 64) 0
      ++ beBytes 8 (8 * msg.length)

/-- Group bytes into big-endian 32-bit words, four bytes at a time. -/
def toWords : List Nat → List Nat
  | b0 :: b1 :: b2 :: b3 :: rest =>
      (((b0 * 256 + b1) * 256 + b2) * 256 + b3) :: toWords rest
  | _ => []

/-- One step of the message-schedule extension, appending word `w[n]`. -/
def scheduleStep (w : List Nat) : List Nat :=
  let n := w.length
  w ++ [(w.getD (n - 16) 0 + sigma0 (w.getD (n - 15) 0)
         + w.getD (n - 7) 0 + sigma1 (w.getD (n - 2) 0)) % 2 ^ 32]

/-- Apply `scheduleStep` `k` times (extending 16 words to 64). -/
def extendW : Nat → List Nat → List Nat
  | 0, w => w
  | k + 1, w => extendW k (scheduleStep w)

/-- The SHA-256 round function folded over the schedule and round constants. -/
def compressWords (st : Hash8) : List Nat → List Nat → Hash8
  | wi :: ws, ki :: ks =>
      let t1 := (st.h + bigSigma1 st.e + shaCh st.e st.f st.g + ki + wi) % 2 ^ 32
      let t2 := (bigSigma0 st.a + shaMaj st.a st.b st.c) % 2 ^ 32
      compressWords ⟨(t1 + t2) % 2 ^ 32, st.a, st.b, st.c,
                     (st.d + t1) % 2 ^ 32, st.e, st.f, st.g⟩ ws ks
  | _, _ => st

/-- Componentwise 32-bit addition of hash states. -/
def addHash8 (x y : Hash8) : Hash8 :=
  ⟨(x.a + y.a) % 2 ^ 32, (x.b + y.b) % 2 ^ 32, (x.c + y.c) % 2 ^ 32,
   (x.d + y.d) % 2 ^ 32, (x.e + y.e) % 2 ^ 32, (x.f + y.f) % 2 ^ 32,
   (x.g + y.g) % 2 ^ 32, (x.h + y.h) % 2 ^ 32⟩

/-- Process one 64-byte block. -/
def compressBlock (st : Hash8) (block : List Nat) : Hash8 :=
  addHash8 (compressWords st (extendW 48 (toWords block)) shaK) st

/-- Chop a byte list into 64-byte chunks (fuel = list length, so the
definition is structurally recursive and kernel-reducible). -/
def chunks64Aux : Nat → List Nat → List (List Nat)
  | 0, _ => []
  | _, [] => []
  | fuel + 1, l => l.take 64 :: chunks64Aux fuel (l.drop 64)

def chunks64 (l : List Nat) : List (List Nat) := chunks64Aux l.length l

/-- The eight 32-bit words of the SHA-256 digest of `msg`. -/
def sha256words (msg : List Nat) : List Nat :=
  let st := ((chunks64 (sha256pad msg)).foldl compressBlock shaH0)
  [st.a, st.b, st.c, st.d, st.e, st.f, st.g, st.h]

/-- One lowercase hexadecimal digit. -/
def hexDigit (n : Nat) : Char :=
  if n < 10 then Char.ofNat (48 + n) else Char.ofNat (87 + n)

/-- Eight lowercase hex characters of a 32-bit word, most significant first. -/
def hex8chars (n : Nat) : List Char :=
  (List.range 8).map (fun i => hexDigit ((n >>> (4 * (7 - i))) % 16))

/-- `hashlib.sha256(bytes(msg)).hexdigest()`: the 64-character lowercase
hexadecimal SHA-256 digest. -/
def sha256hex (msg : List Nat) : String :=
  String.mk (((sha256words msg).map hex8chars).flatten)

/-! ## External variable parsing (`parse_external_vars`, run.py lines 24-35)

The script matches each line of the fetched bytes against the anchored bytes
regex `br' *([\w\.]+) *=(.+)'` (`EXTERNAL_VAR_LINE_PATTERN`, line 12) with
`re.match`, strips both groups, and assigns into a dict.  Since `' '`, the
class `[\w\.]` (ASCII word characters or a dot, as this is a bytes pattern)
and `'='` are pairwise disjoint, that regex is equivalent to the
maximal-munch scan below; `(.+)` greedily takes the whole remainder of the
line (lines produced by splitting on the newline byte contain no newline). -/

/-- A byte matched by the class `[\w\.]` of a bytes regex:
`0-9`, `A-Z`, `a-z`, `_` or `.`. -/
def isWordDotByte (b : Nat) : Bool :=
  (48 ≤ b && b ≤ 57) || (65 ≤ b && b ≤ 90) || (97 ≤ b && b ≤ 122) || b = 95 || b = 46

/-- `re.match(EXTERNAL_VAR_LINE_PATTERN, line)` followed by stripping both
groups: leading spaces, a nonempty run of word/dot bytes (the key), spaces,
a literal `=` (byte 61), and a nonempty value that is the stripped rest of
the line.  `none` models a failed match. -/
def parseVarLine (line : List Nat) : Option (List Nat × List Nat) :=
  let r1 := line.dropWhile (fun b => b == 32)
  let key := r1.takeWhile isWordDotByte
  let r2 := r1.dropWhile isWordDotByte
  let r3 := r2.dropWhile (fun b => b == 32)
  match key, r3 with
  | [], _ => none
  | _, 61 :: rest => if rest = [] then none else some (stripBytes key, stripBytes rest)
  | _, _ => none

/-- Python dict assignment `d[k] = v` on an insertion-ordered association
list: replace in place if the key is present, else append. -/
def insertVar (m : List (List Nat × List Nat)) (k v : List Nat) :
    List (List Nat × List Nat) :=
  if m.any (fun p => p.1 = k) then
    m.map (fun p => if p.1 = k then (k, v) else p)
  else m ++ [(k, v)]

/-- `d.get(key, None)` on the association list. -/
def lookupVar : List (List Nat × List Nat) → List Nat → Option (List Nat)
  | [], _ => none
  | (k, v) :: rest, key => if k = key then some v else lookupVar rest key

/-- `parse_external_vars` (run.py lines 24-35): split the content on
newlines, and fold every line matching the key/value regex into a dict;
lines that fail to match are skipped. -/
def parse_external_vars (content : List Nat) : List (List Nat × List Nat) :=
  (splitBytes content).foldl
    (fun m line =>
      match parseVarLine line with
      | some (k, v) => insertVar m k v
      | none => m)
    []

/-! ## Timestamps

`datetime` values are records of their components.  The script only ever
formats them with `isoformat(timespec='seconds')` followed by
`.replace(':', '-')` (run.py line 75). -/

/-- The components of a Python `datetime` relevant to this script. -/
structure DT where
  year : Nat
  month : Nat
  day : Nat
  hour : Nat
  minute : Nat
  second : Nat
deriving DecidableEq, Repr

/-- `"%02d"`-style rendering of a field. -/
def pad2c (n : Nat) : List Char :=
  if n < 10 then '0' :: (Nat.repr n).toList else (Nat.repr n).toList

/-- `"%04d"`-style rendering of the year. -/
def pad4c (n : Nat) : List Char :=
  if n < 10 then '0' :: '0' :: '0' :: (Nat.repr n).toList
  else if n < 100 then '0' :: '0' :: (Nat.repr n).toList
  else if n < 1000 then '0' :: (Nat.repr n).toList
  else (Nat.repr n).toList

/-- Characters of `timestamp.isoformat(timespec='seconds')`:
`YYYY-MM-DDTHH:MM:SS`. -/
def isoChars (t : DT) : List Char :=
  pad4c t.year ++ '-' :: (pad2c t.month ++ '-' :: (pad2c t.day
    ++ 'T' :: (pad2c t.hour ++ ':' :: (pad2c t.minute ++ ':' :: pad2c t.second))))

/-- `s.replace(':', '-')`. -/
def replaceColons (s : String) : String :=
  String.mk (s.toList.map (fun c => if c = ':' then '-' else c))

/-- `timestamp.isoformat(timespec='seconds').replace(':', '-')`
(run.py line 75). -/
def formattedTimestamp (t : DT) : String :=
  replaceColons (String.mk (isoChars t))

/-! ## The README index rewrite (run.py lines 87-94)

The script rewrites the README with
`re.sub(fr'\[`{re.escape(name)}`](.*)\|(.*)\|', f'[`{name}`]\\1| `{ts}` |', readme)`.
The regex is a literal occurrence of ``[`name`]`` followed by two
pipe-delimited groups; `.` does not match a newline and the resource names
contain none, so every match lies within one line and `re.sub` acts line by
line.  Within a line, greedy matching makes the two explicit `|` the *last*
two pipes of the line, so a successful replacement consumes everything up to
the last pipe; the remainder of the line holds no pipe and hence no further
match, so at most one replacement happens per line and scanning past it is
the identity.  The model below splits into lines, scans each line for the
first position where the full regex matches, performs the single greedy
replacement there, and rejoins the lines. -/

/-- The backtick character, written via its code point. -/
def btk : Char := Char.ofNat 96

/-- The literal part ``[`name`]`` of the README row regex. -/
def linkPat (name : String) : List Char :=
  '[' :: btk :: (name.toList ++ [btk, ']'])

/-- The replacement text `| \x60ts\x60 |` that `re.sub` substitutes for the
final `\|(.*)\|` part of a matched row. -/
def cellRepl (ts : String) : List Char :=
  '|' :: ' ' :: btk :: (ts.toList ++ [btk, ' ', '|'])

/-- `pat` is a prefix of `l`. -/
def leadsWith : List Char → List Char → Bool
  | [], _ => true
  | _ :: _, [] => false
  | p :: ps, c :: cs => p = c && leadsWith ps cs

/-- Split at the last occurrence of `ch`: `rsplitChar ch l = some (a, b)`
iff `l = a ++ ch :: b` with `ch ∉ b`; `none` iff `ch ∉ l`. -/
def rsplitChar (ch : Char) : List Char → Option (List Char × List Char)
  | [] => none
  | c :: cs =>
    match rsplitChar ch cs with
    | some (a, b) => some (c :: a, b)
    | none => if c = ch then some ([], cs) else none

/-- Greedy match of the `(.*)\|(.*)\|` tail of the row regex against the
rest of the line: the two explicit pipes are the last two pipes, giving
groups `g1` and `g2` and the pipe-free remainder after the match. -/
def matchTail (rest : List Char) : Option (List Char × List Char × List Char) :=
  match rsplitChar '|' rest with
  | none => none
  | some (ab, d) =>
    match rsplitChar '|' ab with
    | none => none
    | some (g1, g2) => some (g1, g2, d)

/-- Scan one line left to right for the first position where the full row
regex matches and replace it there.  On a match of
``[`name`]g1|g2|``, the replacement emits ``[`name`]g1| `ts` |`` and the
(pipe-free) remainder of the line unchanged. -/
def subLine (pat repl : List Char) : List Char → List Char
  | [] => []
  | c :: cs =>
    if leadsWith pat (c :: cs) then
      match matchTail (List.drop pat.length (c :: cs)) with
      | some (g1, _, aft) => pat ++ g1 ++ repl ++ aft
      | none => c :: subLine pat repl cs
    else c :: subLine pat repl cs

/-- Split a string's characters on `'\n'` (always at least one piece). -/
def splitNl : List Char → List (List Char)
  | [] => [[]]
  | c :: cs =>
    if c = '\n' then [] :: splitNl cs
    else
      match splitNl cs with
      | [] => [[c]]
      | h :: t => (c :: h) :: t

/-- Rejoin lines with `'\n'`. -/
def joinNl : List (List Char) → List Char
  | [] => []
  | [l] => l
  | l :: ls => l ++ '\n' :: joinNl ls

/-- The README rewrite
`re.sub(fr'\[`{re.escape(name)}`](.*)\|(.*)\|', f'[`{name}`]\\1| `{ts}` |', readme)`
(run.py lines 91-94), for resource names without newlines. -/
def subRow (name ts readme : String) : String :=
  String.mk (joinNl ((splitNl readme.toList).map (subLine (linkPat name) (cellRepl ts))))

/-! ## The change-detection and archival engine (`save_response`, run.py 38-94) -/

/-- A fetch result: the response body bytes and the optional value of the
`Last-Modified` header. -/
structure Response where
  content : List Nat
  lastModified : Option String
deriving DecidableEq, Repr

/-- The filesystem touched by the script: per-name current-snapshot files
(association list, like a directory), the append-only historical directory,
and the README index text. -/
structure FsState where
  currentFiles : List (String × List Nat)
  historicalFiles : List (String × List Nat)
  readme : String
deriving DecidableEq, Repr

/-- Observable side effects, in program order: HTTP GETs, `print`
diagnostics (identified by which `print` statement fired, with its key
payload), and file writes. -/
inductive Event where
  | fetchGet (url : String)
  | printPrettifyFailed (name : String) (msg : String)
  | printNoChange (name : String)
  | printChanged (name : String)
  | printSavingCopy (fileName : String)
  | writeCurrent (name : String) (content : List Nat)
  | writeHistorical (fileName : String) (content : List Nat)
  | writeReadme (content : String)
deriving DecidableEq, Repr

/-- Outcome of a run: normal return, or an uncaught Python exception
(`error`), in both cases with the filesystem state and the event trace at
that point. -/
inductive SaveResult where
  | ok (st : FsState) (events : List Event)
  | error (msg : String) (st : FsState) (events : List Event)
deriving DecidableEq, Repr

/-- Result of the `prettify` block (run.py lines 48-53):
`json.dumps(json.loads(content.decode('utf8')), indent=4).encode('utf8')`
succeeded, or raised `json.JSONDecodeError` (caught by the script), or
`content.decode('utf8')` raised `UnicodeDecodeError` (not caught). -/
inductive PrettifyOutcome where
  | ok (pretty : List Nat)
  | jsonDecodeError (msg : String)
  | unicodeDecodeError (msg : String)
deriving DecidableEq, Repr

/-- The Python library functions the script calls, passed in explicitly:
the JSON round-trip of the prettify block, `datetime.strptime` with format
`'%a, %d %b %Y %H:%M:%S %Z'` (`none` models a raised `ValueError`),
`datetime.utcnow()` at this run, and `bytes.decode` as used on URL values. -/
structure Env where
  prettifyJson : List Nat → PrettifyOutcome
  strptimeLastModified : String → Option DT
  utcnow : DT
  decode : List Nat → String

/-- run.py lines 42-44: grab a timestamp from the `Last-Modified` header if
present; a header value that does not match the date format makes
`datetime.strptime` raise an uncaught `ValueError`. -/
def parseTimestamp (env : Env) (response : Response) : Except String (Option DT) :=
  match response.lastModified with
  | none => .ok none
  | some s =>
    match env.strptimeLastModified s with
    | some t => .ok (some t)
    | none => .error "ValueError: time data does not match format"

/-- run.py lines 46-53: the content to hash and store — the prettified JSON
when `prettify` is set and the round-trip succeeds, the raw content (plus
the diagnostic print) when `json.loads` raises `JSONDecodeError`, an
uncaught error when `content.decode('utf8')` fails. -/
def computeContent (env : Env) (name : String) (prettify : Bool) (raw : List Nat) :
    Except String (List Nat × List Event) :=
  if prettify then
    match env.prettifyJson raw with
    | .ok pretty => .ok (pretty, [])
    | .jsonDecodeError msg => .ok (raw, [.printPrettifyFailed name msg])
    | .unicodeDecodeError msg => .error msg
  else .ok (raw, [])

/-- Reading the current-snapshot file: `Path.exists` plus `open(..).read()`. -/
def lookupFile : List (String × List Nat) → String → Option (List Nat)
  | [], _ => none
  | (k, v) :: rest, name => if k = name then some v else lookupFile rest name

/-- Writing a file: overwrite in place if present, else create. -/
def writeFile : List (String × List Nat) → String → List Nat → List (String × List Nat)
  | [], name, content => [(name, content)]
  | (k, v) :: rest, name, content =>
    if k = name then (name, content) :: rest else (k, v) :: writeFile rest name content

/-- `name.rsplit('.', 1)` (run.py line 77): split at the last dot; `none`
models the `ValueError` raised by unpacking when the name has no dot. -/
def rsplitDot : List Char → Option (List Char × List Char)
  | [] => none
  | c :: cs =>
    match rsplitDot cs with
    | some (a, b) => some (c :: a, b)
    | none => if c = '.' then some ([], cs) else none

/-- `save_response(name, response, prettify)` (run.py lines 38-94):
 1. parse the `Last-Modified` header if present (an unparseable value raises
    before anything else happens);
 2. optionally prettify the content, falling back to the raw bytes on
    `JSONDecodeError`;
 3. hash the (possibly prettified) content and the existing current snapshot
    and stop (`printNoChange`) when the hex digests are equal;
 4. otherwise overwrite the current snapshot with the (possibly prettified)
    content, default the timestamp to `utcnow`, build the historical file
    name `{base}_{formatted}_{hash}.{ext}`, append the **raw** response body
    to the historical directory, and rewrite the matching README row. -/
def save_response (env : Env) (name : String) (response : Response)
    (prettify : Bool) (st : FsState) : SaveResult :=
  match parseTimestamp env response with
  | .error msg => .error msg st []
  | .ok timestamp =>
    match computeContent env name prettify response.content with
    | .error msg => .error msg st []
    | .ok (content, ev1) =>
      let current_hash := sha256hex content
      let existing_hash : Option String := (lookupFile st.currentFiles name).map sha256hex
      if existing_hash = some current_hash then
        .ok st (ev1 ++ [.printNoChange name])
      else
        let st1 : FsState := { st with currentFiles := writeFile st.currentFiles name content }
        let ts : DT := timestamp.getD env.utcnow
        let formatted := formattedTimestamp ts
        match rsplitDot name.toList with
        | none =>
          .error "ValueError: not enough values to unpack" st1
            (ev1 ++ [.printChanged name, .writeCurrent name content])
        | some (base, ext) =>
          let historical_file_name :=
            String.mk base ++ "_" ++ formatted ++ "_" ++ current_hash ++ "." ++ String.mk ext
          let st2 : FsState :=
            { st1 with historicalFiles :=
                st1.historicalFiles ++ [(historical_file_name, response.content)] }
          let newReadme := subRow name formatted st.readme
          let st3 : FsState := { st2 with readme := newReadme }
          .ok st3
            (ev1 ++ [.printChanged name, .writeCurrent name content,
                     .printSavingCopy historical_file_name,
                     .writeHistorical historical_file_name response.content,
                     .writeReadme newReadme])

/-! ## The orchestrator (`main`, run.py lines 97-125) -/

def CLIENT_URLS_URL : String := "https://origins.habbo.com/gamedata/clienturls"

def EXTERNAL_VARS_URL : String := "http://origins-gamedata.habbo.com/external_variables/1"

/-- Prepend events (e.g. the `fetchGet` preceding a save) to a result. -/
def prependEvents (evs : List Event) : SaveResult → SaveResult
  | .ok st e => .ok st (evs ++ e)
  | .error m st e => .error m st (evs ++ e)

/-- Sequence two effectful steps, accumulating events; an uncaught exception
in the first step aborts the run. -/
def seqSave (r : SaveResult) (f : FsState → SaveResult) : SaveResult :=
  match r with
  | .ok st evs => prependEvents evs (f st)
  | .error m st evs => .error m st evs

/-- `r = http_client.get(url); save_response(name, r, prettify)`.  HTTP is
modelled by the pure oracle `fetch` giving the response each URL would
return during this run. -/
def fetchAndSave (env : Env) (fetch : String → Response) (url name : String)
    (prettify : Bool) (st : FsState) : SaveResult :=
  prependEvents [.fetchGet url] (save_response env name (fetch url) prettify st)

/-- One optional block of `main` (run.py lines 115-125): look up a
well-known key; `if url:` skips both the fetch and the save when the key is
absent (`None`) or its value is the empty (falsy) byte string. -/
def optionalFetchSave (env : Env) (fetch : String → Response)
    (urlVal : Option (List Nat)) (name : String) (st : FsState) : SaveResult :=
  match urlVal with
  | none => .ok st []
  | some v => if v = [] then .ok st [] else fetchAndSave env fetch (env.decode v) name false st

/-- `main()` (run.py lines 97-125): fetch and archive the client URLs
(prettified) and the external variables, then parse the latter and process
the three well-known keys in order.  (The `mkdir` of the historical
directory has no observable effect in this model, where the historical
directory always exists in `FsState`.) -/
def mainModel (env : Env) (fetch : String → Response) (st : FsState) : SaveResult :=
  seqSave (fetchAndSave env fetch CLIENT_URLS_URL "client_urls.txt" true st) (fun st1 =>
  seqSave (fetchAndSave env fetch EXTERNAL_VARS_URL "external_vars.txt" false st1) (fun st2 =>
  let vars := parse_external_vars (fetch EXTERNAL_VARS_URL).content
  seqSave (optionalFetchSave env fetch (lookupVar vars (asciiBytes "external.texts.txt"))
      "external_texts.txt" st2) (fun st3 =>
  seqSave (optionalFetchSave env fetch (lookupVar vars (asciiBytes "external.figurepartlist.txt"))
      "figuredata.txt" st3) (fun st4 =>
  optionalFetchSave env fetch (lookupVar vars (asciiBytes "external.override.texts.txt"))
      "external_flash_override_texts.txt" st4))))

/-- The full regex of the README rewrite fires somewhere on this line:
some position carries the literal ``[`name`]`` followed by at least two
pipes later in the line. -/
def lineFires (pat : List Char) : List Char → Bool
  | [] => false
  | c :: cs =>
    (leadsWith pat (c :: cs) && (matchTail (List.drop pat.length (c :: cs))).isSome)
      || lineFires pat cs

/-! ## Helper lemmas -/

theorem lookupFile_writeFile (m : List (String × List Nat)) (n : String) (c : List Nat) :
    lookupFile (writeFile m n c) n = some c := by
  induction m with
  | nil => simp [writeFile, lookupFile]
  | cons p rest ih =>
    by_cases h : p.1 = n
    · simp [writeFile, h, lookupFile]
    · simp [writeFile, h, lookupFile, ih]

theorem seqSave_ok_nil_right (r : SaveResult) :
    seqSave r (fun st => .ok st []) = r := by
  cases r <;> simp [seqSave, prependEvents]

theorem seqSave_ok_nil_left (st : FsState) (f : FsState → SaveResult) :
    seqSave (.ok st []) f = f st := by
  cases h : f st <;> simp [seqSave, prependEvents, h]

theorem parse_external_vars_foldl (lines : List (List Nat))
    (acc : List (List Nat × List Nat)) :
    lines.foldl
      (fun m line =>
        match parseVarLine line with
        | some (k, v) => insertVar m k v
        | none => m)
      acc
    = (lines.filterMap parseVarLine).foldl (fun m kv => insertVar m kv.1 kv.2) acc := by
  induction lines generalizing acc with
  | nil => rfl
  | cons l rest ih =>
    cases h : parseVarLine l with
    | none => simp [List.foldl_cons, List.filterMap_cons, h, ih]
    | some kv => cases kv with
      | mk k v => simp [List.foldl_cons, List.filterMap_cons, h, ih]

theorem leadsWith_self_append (p x : List Char) : leadsWith p (p ++ x) = true := by
  induction p with
  | nil => rfl
  | cons c cs ih => simp [leadsWith, ih]

theorem rsplitChar_of_not_mem (ch : Char) (l : List Char) (h : ch ∉ l) :
    rsplitChar ch l = none := by
  induction l with
  | nil => rfl
  | cons c cs ih =>
    simp only [List.mem_cons, not_or] at h
    have hcc : ¬c = ch := fun hc => h.1 hc.symm
    simp [rsplitChar, ih h.2, hcc]

theorem rsplitChar_append (ch : Char) (x d : List Char) (h : ch ∉ d) :
    rsplitChar ch (x ++ ch :: d) = some (x, d) := by
  induction x with
  | nil => simp [rsplitChar, rsplitChar_of_not_mem ch d h]
  | cons c cs ih => simp [rsplitChar, ih]

theorem matchTail_eq (b c d : List Char) (hc : '|' ∉ c) (hd : '|' ∉ d) :
    matchTail (b ++ '|' :: c ++ '|' :: d) = some (b, c, d) := by
  have h1 := rsplitChar_append '|' (b ++ '|' :: c) d hd
  unfold matchTail
  rw [h1]
  simp [rsplitChar_append '|' b c hc]

theorem subLine_of_not_fires (pat repl : List Char) (l : List Char)
    (h : lineFires pat l = false) : subLine pat repl l = l := by
  induction l with
  | nil => rfl
  | cons c cs ih =>
    simp only [lineFires, Bool.or_eq_false_iff] at h
    obtain ⟨h1, h2⟩ := h
    by_cases hlw : leadsWith pat (c :: cs) = true
    · cases hmt : matchTail (List.drop pat.length (c :: cs)) with
      | none => simp [subLine, hlw, hmt, ih h2]
      | some v => rw [hlw, hmt] at h1; simp at h1
    · simp [subLine, hlw, ih h2]

theorem splitNl_ne_nil (l : List Char) : splitNl l ≠ [] := by
  cases l with
  | nil => simp [splitNl]
  | cons c cs =>
    simp only [splitNl]
    split
    · simp
    · rcases hs : splitNl cs with _ | ⟨a, as⟩ <;> simp

theorem joinNl_splitNl (l : List Char) : joinNl (splitNl l) = l := by
  induction l with
  | nil => rfl
  | cons c cs ih =>
    by_cases h : c = '\n'
    · subst h
      simp only [splitNl, if_pos rfl]
      cases hs : splitNl cs with
      | nil => exact absurd hs (splitNl_ne_nil cs)
      | cons a as =>
        rw [hs] at ih
        simp [joinNl, ih]
    · simp only [splitNl, if_neg h]
      cases hs : splitNl cs with
      | nil => exact absurd hs (splitNl_ne_nil cs)
      | cons a as =>
        rw [hs] at ih
        cases as with
        | nil => simpa [joinNl] using ih
        | cons b bs => simpa [joinNl] using ih

theorem splitNl_no_newline (l : List Char) (h : '\n' ∉ l) : splitNl l = [l] := by
  induction l with
  | nil => rfl
  | cons c cs ih =>
    simp only [List.mem_cons, not_or] at h
    have hcc : ¬c = '\n' := fun hc => h.1 hc.symm
    have : splitNl cs = [cs] := ih h.2
    simp [splitNl, hcc, this]

theorem splitNl_append (l rest : List Char) (h : '\n' ∉ l) :
    splitNl (l ++ '\n' :: rest) = l :: splitNl rest := by
  induction l with
  | nil => simp [splitNl]
  | cons c cs ih =>
    simp only [List.mem_cons, not_or] at h
    have hcc : ¬c = '\n' := fun hc => h.1 hc.symm
    simp [splitNl, hcc, ih h.2]

theorem splitNl_joinNl (lines : List (List Char)) (hne : lines ≠ [])
    (hnl : ∀ l ∈ lines, '\n' ∉ l) : splitNl (joinNl lines) = lines := by
  induction lines with
  | nil => exact absurd rfl hne
  | cons l rest ih =>
    cases rest with
    | nil => simpa [joinNl] using splitNl_no_newline l (hnl l (by simp))
    | cons m ms =>
      have h1 : '\n' ∉ l := hnl l (by simp)
      have h2 : ∀ x ∈ m :: ms, '\n' ∉ x := fun x hx => hnl x (by simp [hx])
      simp only [joinNl]
      rw [splitNl_append l _ h1, ih (by simp) h2]

theorem subLine_skip_then_fire (pat repl : List Char) (a rest : List Char)
    (g1 g2 aft : List Char)
    (hskip : ∀ i, i < a.length → leadsWith pat (List.drop i (a ++ rest)) = false)
    (hlw : leadsWith pat rest = true)
    (hmt : matchTail (List.drop pat.length rest) = some (g1, g2, aft)) :
    subLine pat repl (a ++ rest) = a ++ (pat ++ g1 ++ repl ++ aft) := by
  induction a with
  | nil =>
    cases rest with
    | nil =>
      cases pat with
      | nil => simp [matchTail, rsplitChar] at hmt
      | cons p ps => simp [leadsWith] at hlw
    | cons c cs => simp [subLine, hlw, hmt]
  | cons x a' ih =>
    have h0 : leadsWith pat (x :: (a' ++ rest)) = false := by
      have := hskip 0 (by simp)
      simpa using this
    have hskip' : ∀ i, i < a'.length → leadsWith pat (List.drop i (a' ++ rest)) = false := by
      intro i hi
      have := hskip (i + 1) (by simpa using Nat.succ_lt_succ hi)
      simpa using this
    simp [subLine, h0, ih hskip']

theorem hex8chars_length (n : Nat) : (hex8chars n).length = 8 := by
  simp [hex8chars]

theorem hexDigit_mem (n : Nat) (h : n < 16) :
    hexDigit n ∈ ("0123456789abcdef").toList := by
  interval_cases n <;> decide

theorem sha256hex_hex (msg : List Nat) :
    (sha256hex msg).toList.length = 64
      ∧ ∀ ch ∈ (sha256hex msg).toList, ch ∈ ("0123456789abcdef").toList := by
  constructor
  · show (((sha256words msg).map hex8chars).flatten).length = 64
    rw [List.length_flatten]
    simp [sha256words, hex8chars_length]
  · intro ch hch
    have hch' : ch ∈ ((sha256words msg).map hex8chars).flatten := hch
    rw [List.mem_flatten] at hch'
    obtain ⟨l, hl, hcl⟩ := hch'
    rw [List.mem_map] at hl
    obtain ⟨n, _, rfl⟩ := hl
    simp only [hex8chars, List.mem_map] at hcl
    obtain ⟨i, _, rfl⟩ := hcl
    exact hexDigit_mem _ (Nat.mod_lt _ (by norm_num))

theorem formattedTimestamp_ne_empty (t : DT) : (formattedTimestamp t).toList ≠ [] := by
  cases h4 : pad4c t.year <;>
    simp [formattedTimestamp, replaceColons, isoChars, h4]

/-- The full equation of `save_response` on the changed branch: the header
parsed to `t`, prettification produced `content`, the hash comparison
reported a change, and the name split at its last dot. -/
theorem save_response_changed
    (env : Env) (name : String) (response : Response) (prettify : Bool) (st : FsState)
    (t : Option DT) (content : List Nat) (ev1 : List Event) (base ext : List Char)
    (hts : parseTimestamp env response = .ok t)
    (hc : computeContent env name prettify response.content = .ok (content, ev1))
    (hch : ¬(lookupFile st.currentFiles name).map sha256hex = some (sha256hex content))
    (hname : rsplitDot name.toList = some (base, ext)) :
    save_response env name response prettify st =
      .ok { currentFiles := writeFile st.currentFiles name content,
            historicalFiles := st.historicalFiles ++
              [(String.mk base ++ "_" ++ formattedTimestamp (t.getD env.utcnow) ++ "_"
                  ++ sha256hex content ++ "." ++ String.mk ext, response.content)],
            readme := subRow name (formattedTimestamp (t.getD env.utcnow)) st.readme }
          (ev1 ++ [.printChanged name, .writeCurrent name content,
                   .printSavingCopy (String.mk base ++ "_"
                     ++ formattedTimestamp (t.getD env.utcnow) ++ "_"
                     ++ sha256hex content ++ "." ++ String.mk ext),
                   .writeHistorical (String.mk base ++ "_"
                     ++ formattedTimestamp (t.getD env.utcnow) ++ "_"
                     ++ sha256hex content ++ "." ++ String.mk ext) response.content,
                   .writeReadme (subRow name (formattedTimestamp (t.getD env.utcnow))
                     st.readme)]) := by
  have hname' : rsplitDot name.data = some (base, ext) := hname
  simp [save_response, hts, hc, hch, hname']

/-- A second run of `save_response` right after a successful run on the same
response finds equal hashes and changes nothing. -/
theorem save_response_rerun
    (env : Env) (name : String) (response : Response) (prettify : Bool)
    (st st1 : FsState) (evs1 : List Event) (content : List Nat) (ev1 : List Event)
    (hc : computeContent env name prettify response.content = .ok (content, ev1))
    (hrun : save_response env name response prettify st = .ok st1 evs1) :
    save_response env name response prettify st1 = .ok st1 (ev1 ++ [.printNoChange name]) := by
  cases hpt : parseTimestamp env response with
  | error m => simp [save_response, hpt] at hrun
  | ok t =>
    by_cases hev : (lookupFile st.currentFiles name).map sha256hex = some (sha256hex content)
    · have heq : save_response env name response prettify st
          = .ok st (ev1 ++ [.printNoChange name]) := by
        simp [save_response, hpt, hc, hev]
      rw [heq] at hrun
      simp only [SaveResult.ok.injEq] at hrun
      rw [← hrun.1]
      exact heq
    · cases hname : rsplitDot name.toList with
      | none =>
        have hname' : rsplitDot name.data = none := hname
        simp [save_response, hpt, hc, hev, hname'] at hrun
      | some be =>
        obtain ⟨base, ext⟩ := be
        have heq := save_response_changed env name response prettify st t content ev1
          base ext hpt hc hev hname
        rw [heq] at hrun
        simp only [SaveResult.ok.injEq] at hrun
        rw [← hrun.1]
        simp [save_response, hpt, hc, lookupFile_writeFile]

theorem strMk_toList (s : String) : String.mk s.toList = s := by
  cases s
  rfl

theorem optionalFetchSave_none (env : Env) (fetch : String → Response)
    (name : String) (st : FsState) :
    optionalFetchSave env fetch none name st = .ok st [] := rfl

/-! ## The claims -/

/-- C1: if the SHA-256 hash of the (possibly prettified) content equals the
hash of the bytes already stored in the current-snapshot file for that name,
`save_response` performs no writes at all — the state is returned unchanged
and the event trace holds only prints (the possible prettify diagnostic and
the no-change diagnostic); consequently a second run on identical content
right after any successful run changes nothing and adds no archive entry. -/
theorem c1_hash_match_idempotent
    (env : Env) (name : String) (response : Response) (prettify : Bool) (st : FsState)
    (old content : List Nat) (ev1 : List Event)
    (hts : ∃ t, parseTimestamp env response = .ok t)
    (hc : computeContent env name prettify response.content = .ok (content, ev1))
    (hlook : lookupFile st.currentFiles name = some old)
    (hhash : sha256hex content = sha256hex old) :
    save_response env name response prettify st = .ok st (ev1 ++ [.printNoChange name])
    ∧ ∀ st1 evs1, save_response env name response prettify st = .ok st1 evs1 →
        save_response env name response prettify st1
          = .ok st1 (ev1 ++ [.printNoChange name]) := by
  obtain ⟨t, hts⟩ := hts
  constructor
  · simp [save_response, hts, hc, hlook, hhash]
  · intro st1 evs1 hrun
    exact save_response_rerun env name response prettify st st1 evs1 content ev1 hc hrun

/-- C1 witness: a snapshot holding byte `120` and a fresh response with the
same byte: the run returns the state unchanged with only the no-change
print, and rerunning after it changes nothing either. -/
theorem c1_witness :
    save_response
        ⟨fun _ => .jsonDecodeError "e", fun _ => none, ⟨2025, 1, 2, 3, 4, 5⟩, fun _ => ""⟩
        "a.txt" ⟨[120], none⟩ false ⟨[("a.txt", [120])], [], ""⟩
      = .ok ⟨[("a.txt", [120])], [], ""⟩ [Event.printNoChange "a.txt"] :=
  (c1_hash_match_idempotent
    ⟨fun _ => .jsonDecodeError "e", fun _ => none, ⟨2025, 1, 2, 3, 4, 5⟩, fun _ => ""⟩
    "a.txt" ⟨[120], none⟩ false ⟨[("a.txt", [120])], [], ""⟩
    [120] [120] [] ⟨none, rfl⟩ rfl rfl rfl).1

/-- C2: on the changed branch with prettification applied and successful,
the current snapshot stores the prettified bytes while the archive entry
appended to the historical directory is byte-identical to the raw response
body. -/
theorem c2_archive_entry_raw
    (env : Env) (name : String) (response : Response) (st : FsState)
    (t : Option DT) (pretty : List Nat) (base ext : List Char)
    (hts : parseTimestamp env response = .ok t)
    (hp : env.prettifyJson response.content = .ok pretty)
    (hch : ¬(lookupFile st.currentFiles name).map sha256hex = some (sha256hex pretty))
    (hname : rsplitDot name.toList = some (base, ext)) :
    save_response env name response true st =
      .ok { currentFiles := writeFile st.currentFiles name pretty,
            historicalFiles := st.historicalFiles ++
              [(String.mk base ++ "_" ++ formattedTimestamp (t.getD env.utcnow) ++ "_"
                  ++ sha256hex pretty ++ "." ++ String.mk ext, response.content)],
            readme := subRow name (formattedTimestamp (t.getD env.utcnow)) st.readme }
          ([] ++ [.printChanged name, .writeCurrent name pretty,
                  .printSavingCopy (String.mk base ++ "_"
                    ++ formattedTimestamp (t.getD env.utcnow) ++ "_"
                    ++ sha256hex pretty ++ "." ++ String.mk ext),
                  .writeHistorical (String.mk base ++ "_"
                    ++ formattedTimestamp (t.getD env.utcnow) ++ "_"
                    ++ sha256hex pretty ++ "." ++ String.mk ext) response.content,
                  .writeReadme (subRow name (formattedTimestamp (t.getD env.utcnow))
                    st.readme)]) :=
  save_response_changed env name response true st t pretty [] base ext hts
    (by simp [computeContent, hp]) hch hname

/-- C2 witness: raw content `[91, 49, 93]` (`"[1]"`) prettifies to
`[91, 49, 32, 93]` (`"[1 ]"`); the current snapshot receives the prettified
bytes but the historical entry receives the raw bytes. -/
theorem c2_witness :
    save_response
        ⟨fun c => if c = [91, 49, 93] then .ok [91, 49, 32, 93] else .jsonDecodeError "e",
         fun _ => none, ⟨2025, 1, 2, 3, 4, 5⟩, fun _ => ""⟩
        "a.txt" ⟨[91, 49, 93], none⟩ true ⟨[], [], ""⟩
      = .ok { currentFiles := writeFile [] "a.txt" [91, 49, 32, 93],
              historicalFiles := [] ++
                [(String.mk ['a'] ++ "_" ++ formattedTimestamp ⟨2025, 1, 2, 3, 4, 5⟩ ++ "_"
                    ++ sha256hex [91, 49, 32, 93] ++ "." ++ String.mk ['t', 'x', 't'],
                  [91, 49, 93])],
              readme := subRow "a.txt" (formattedTimestamp ⟨2025, 1, 2, 3, 4, 5⟩) "" }
            ([] ++ [.printChanged "a.txt", .writeCurrent "a.txt" [91, 49, 32, 93],
                    .printSavingCopy (String.mk ['a'] ++ "_"
                      ++ formattedTimestamp ⟨2025, 1, 2, 3, 4, 5⟩ ++ "_"
                      ++ sha256hex [91, 49, 32, 93] ++ "." ++ String.mk ['t', 'x', 't']),
                    .writeHistorical (String.mk ['a'] ++ "_"
                      ++ formattedTimestamp ⟨2025, 1, 2, 3, 4, 5⟩ ++ "_"
                      ++ sha256hex [91, 49, 32, 93] ++ "." ++ String.mk ['t', 'x', 't'])
                      [91, 49, 93],
                    .writeReadme (subRow "a.txt"
                      (formattedTimestamp ⟨2025, 1, 2, 3, 4, 5⟩) "")]) :=
  c2_archive_entry_raw
    ⟨fun c => if c = [91, 49, 93] then .ok [91, 49, 32, 93] else .jsonDecodeError "e",
     fun _ => none, ⟨2025, 1, 2, 3, 4, 5⟩, fun _ => ""⟩
    "a.txt" ⟨[91, 49, 93], none⟩ ⟨[], [], ""⟩ none [91, 49, 32, 93]
    ['a'] ['t', 'x', 't'] rfl (by simp) (by simp [lookupFile]) rfl

/-- C3 counterexample: the claim's universal "does not raise" is false.
Content that is not valid UTF-8 (here the single byte `0xff`, i.e.
`b'\xff'`) also fails reformatting as "not valid structured data", but on
that input `content.decode('utf8')` (run.py line 50) raises
`UnicodeDecodeError`, which the `except json.JSONDecodeError` clause
(line 52) does not catch: `save_response` raises uncaught, with nothing
hashed and nothing written.  The environment records that the Python
prettify block raises `UnicodeDecodeError` on this content, exactly as
`bytes([255]).decode('utf8')` does. -/
theorem c3_counterexample :
    save_response
        ⟨fun c => if c = [255]
            then .unicodeDecodeError "UnicodeDecodeError: invalid start byte"
            else .jsonDecodeError "Expecting value",
         fun _ => none, ⟨2025, 1, 2, 3, 4, 5⟩, fun _ => ""⟩
        "a.txt" ⟨[255], none⟩ true ⟨[], [], ""⟩
      = .error "UnicodeDecodeError: invalid start byte" ⟨[], [], ""⟩ [] := rfl

/-- C3 (amended): when prettification is requested and the reformat fails
with `json.JSONDecodeError` — the content decodes as UTF-8 but is not valid
JSON — `save_response` does not raise: it behaves exactly like the
non-prettified run with the failure diagnostic prepended (raw content is
hashed and stored), and — given a parseable header situation and a dotted
name — it completes normally.  (When the content is not valid UTF-8 the
decode raises `UnicodeDecodeError`, which is not caught; see the
counterexample above.) -/
theorem c3_prettify_fallback
    (env : Env) (name : String) (response : Response) (st : FsState)
    (msg : String) (t : Option DT)
    (hp : env.prettifyJson response.content = .jsonDecodeError msg)
    (hts : parseTimestamp env response = .ok t) :
    save_response env name response true st
      = prependEvents [.printPrettifyFailed name msg]
          (save_response env name response false st)
    ∧ ∀ base ext : List Char, rsplitDot name.toList = some (base, ext) →
        ∃ st' evs, save_response env name response true st = .ok st' evs := by
  have hcT : computeContent env name true response.content
      = .ok (response.content, [.printPrettifyFailed name msg]) := by
    simp [computeContent, hp]
  have hcF : computeContent env name false response.content
      = .ok (response.content, []) := rfl
  constructor
  · by_cases hev : (lookupFile st.currentFiles name).map sha256hex
        = some (sha256hex response.content)
    · simp [save_response, hts, hcT, hcF, hev, prependEvents]
    · cases hname : rsplitDot name.data with
      | none => simp [save_response, hts, hcT, hcF, hev, hname, prependEvents]
      | some be =>
        obtain ⟨base, ext⟩ := be
        simp [save_response, hts, hcT, hcF, hev, hname, prependEvents]
  · intro base ext hname
    by_cases hev : (lookupFile st.currentFiles name).map sha256hex
        = some (sha256hex response.content)
    · exact ⟨st, [.printPrettifyFailed name msg, .printNoChange name],
        by simp [save_response, hts, hcT, hev]⟩
    · exact ⟨_, _, save_response_changed env name response true st t response.content
        [.printPrettifyFailed name msg] base ext hts hcT hev hname⟩

/-- C3 witness: content `[104]` is not valid JSON, so the prettified run
equals the raw run with the diagnostic prepended, and it completes. -/
theorem c3_witness :
    save_response
        ⟨fun _ => .jsonDecodeError "e", fun _ => none, ⟨2025, 1, 2, 3, 4, 5⟩, fun _ => ""⟩
        "a.txt" ⟨[104], none⟩ true ⟨[], [], ""⟩
      = prependEvents [.printPrettifyFailed "a.txt" "e"]
          (save_response
            ⟨fun _ => .jsonDecodeError "e", fun _ => none, ⟨2025, 1, 2, 3, 4, 5⟩, fun _ => ""⟩
            "a.txt" ⟨[104], none⟩ false ⟨[], [], ""⟩) :=
  (c3_prettify_fallback
    ⟨fun _ => .jsonDecodeError "e", fun _ => none, ⟨2025, 1, 2, 3, 4, 5⟩, fun _ => ""⟩
    "a.txt" ⟨[104], none⟩ ⟨[], [], ""⟩ "e" none rfl rfl).1

/-- C4: parsing the exact spec input yields exactly the two stripped
key/value pairs with `badline` skipped, and in general
`parse_external_vars` is the fold over only the lines matching the
key/value regex — non-matching lines are dropped (and the function is
total, so nothing is raised). -/
theorem c4_parse_external_vars :
    parse_external_vars
        (asciiBytes
          "external.texts.txt = http://x/a.txt\nbadline\nexternal.figurepartlist.txt=http://x/b.txt\n")
      = [(asciiBytes "external.texts.txt", asciiBytes "http://x/a.txt"),
         (asciiBytes "external.figurepartlist.txt", asciiBytes "http://x/b.txt")]
    ∧ ∀ content : List Nat,
        parse_external_vars content
          = ((splitBytes content).filterMap parseVarLine).foldl
              (fun m kv => insertVar m kv.1 kv.2) [] :=
  ⟨by decide, fun content => parse_external_vars_foldl (splitBytes content) []⟩

/-- C5: on an archival write, the timestamp used in the historical file name
and the README update is the parsed `Last-Modified` value when the header is
present (and parseable), and `datetime.utcnow()` when the header is absent;
the formatted timestamp is never the empty string. -/
theorem c5_timestamp_selection
    (env : Env) (name : String) (response : Response) (prettify : Bool) (st : FsState)
    (content : List Nat) (ev1 : List Event) (base ext : List Char)
    (hc : computeContent env name prettify response.content = .ok (content, ev1))
    (hch : ¬(lookupFile st.currentFiles name).map sha256hex = some (sha256hex content))
    (hname : rsplitDot name.toList = some (base, ext)) :
    (response.lastModified = none →
      save_response env name response prettify st =
        .ok { currentFiles := writeFile st.currentFiles name content,
              historicalFiles := st.historicalFiles ++
                [(String.mk base ++ "_" ++ formattedTimestamp env.utcnow ++ "_"
                    ++ sha256hex content ++ "." ++ String.mk ext, response.content)],
              readme := subRow name (formattedTimestamp env.utcnow) st.readme }
            (ev1 ++ [.printChanged name, .writeCurrent name content,
                     .printSavingCopy (String.mk base ++ "_"
                       ++ formattedTimestamp env.utcnow ++ "_"
                       ++ sha256hex content ++ "." ++ String.mk ext),
                     .writeHistorical (String.mk base ++ "_"
                       ++ formattedTimestamp env.utcnow ++ "_"
                       ++ sha256hex content ++ "." ++ String.mk ext) response.content,
                     .writeReadme (subRow name (formattedTimestamp env.utcnow) st.readme)]))
    ∧ (∀ (s : String) (t : DT), response.lastModified = some s →
        env.strptimeLastModified s = some t →
        save_response env name response prettify st =
          .ok { currentFiles := writeFile st.currentFiles name content,
                historicalFiles := st.historicalFiles ++
                  [(String.mk base ++ "_" ++ formattedTimestamp t ++ "_"
                      ++ sha256hex content ++ "." ++ String.mk ext, response.content)],
                readme := subRow name (formattedTimestamp t) st.readme }
              (ev1 ++ [.printChanged name, .writeCurrent name content,
                       .printSavingCopy (String.mk base ++ "_" ++ formattedTimestamp t
                         ++ "_" ++ sha256hex content ++ "." ++ String.mk ext),
                       .writeHistorical (String.mk base ++ "_" ++ formattedTimestamp t
                         ++ "_" ++ sha256hex content ++ "." ++ String.mk ext)
                         response.content,
                       .writeReadme (subRow name (formattedTimestamp t) st.readme)]))
    ∧ ∀ t : DT, (formattedTimestamp t).toList ≠ [] := by
  refine ⟨fun hm => ?_, fun s t hm hst => ?_, formattedTimestamp_ne_empty⟩
  · exact save_response_changed env name response prettify st none content ev1 base ext
      (by simp [parseTimestamp, hm]) hc hch hname
  · exact save_response_changed env name response prettify st (some t) content ev1 base ext
      (by simp [parseTimestamp, hm, hst]) hc hch hname

/-- C5 witness: with no `Last-Modified` header, the archived file name and
README update use the formatted `utcnow` of the run. -/
theorem c5_witness :
    save_response
        ⟨fun _ => .jsonDecodeError "e", fun _ => none, ⟨2025, 1, 2, 3, 4, 5⟩, fun _ => ""⟩
        "a.txt" ⟨[110], none⟩ false ⟨[], [], ""⟩
      = .ok { currentFiles := writeFile [] "a.txt" [110],
              historicalFiles := [] ++
                [(String.mk ['a'] ++ "_" ++ formattedTimestamp ⟨2025, 1, 2, 3, 4, 5⟩ ++ "_"
                    ++ sha256hex [110] ++ "." ++ String.mk ['t', 'x', 't'], [110])],
              readme := subRow "a.txt" (formattedTimestamp ⟨2025, 1, 2, 3, 4, 5⟩) "" }
            ([] ++ [.printChanged "a.txt", .writeCurrent "a.txt" [110],
                    .printSavingCopy (String.mk ['a'] ++ "_"
                      ++ formattedTimestamp ⟨2025, 1, 2, 3, 4, 5⟩ ++ "_"
                      ++ sha256hex [110] ++ "." ++ String.mk ['t', 'x', 't']),
                    .writeHistorical (String.mk ['a'] ++ "_"
                      ++ formattedTimestamp ⟨2025, 1, 2, 3, 4, 5⟩ ++ "_"
                      ++ sha256hex [110] ++ "." ++ String.mk ['t', 'x', 't']) [110],
                    .writeReadme (subRow "a.txt"
                      (formattedTimestamp ⟨2025, 1, 2, 3, 4, 5⟩) "")]) :=
  (c5_timestamp_selection
    ⟨fun _ => .jsonDecodeError "e", fun _ => none, ⟨2025, 1, 2, 3, 4, 5⟩, fun _ => ""⟩
    "a.txt" ⟨[110], none⟩ false ⟨[], [], ""⟩ [110] [] ['a'] ['t', 'x', 't']
    rfl (by simp [lookupFile]) rfl).1 rfl

/-- C8: on an archival write the historical file name is exactly the base
name of the resource, an underscore, the formatted timestamp (the ISO-8601
seconds form with each colon replaced by a hyphen), an underscore, the
SHA-256 hex digest of the (possibly prettified) content, a dot, and the
resource's original extension; the digest is 64 characters, all lowercase
hexadecimal. -/
theorem c8_archive_entry_naming
    (env : Env) (name : String) (response : Response) (prettify : Bool) (st : FsState)
    (t : Option DT) (content : List Nat) (ev1 : List Event) (base ext : List Char)
    (hts : parseTimestamp env response = .ok t)
    (hc : computeContent env name prettify response.content = .ok (content, ev1))
    (hch : ¬(lookupFile st.currentFiles name).map sha256hex = some (sha256hex content))
    (hname : rsplitDot name.toList = some (base, ext)) :
    (∃ evs, save_response env name response prettify st =
      .ok { currentFiles := writeFile st.currentFiles name content,
            historicalFiles := st.historicalFiles ++
              [(String.mk base ++ "_" ++ formattedTimestamp (t.getD env.utcnow) ++ "_"
                  ++ sha256hex content ++ "." ++ String.mk ext, response.content)],
            readme := subRow name (formattedTimestamp (t.getD env.utcnow)) st.readme } evs)
    ∧ (sha256hex content).toList.length = 64
    ∧ (∀ ch ∈ (sha256hex content).toList, ch ∈ ("0123456789abcdef").toList)
    ∧ formattedTimestamp (t.getD env.utcnow)
        = replaceColons (String.mk (isoChars (t.getD env.utcnow))) :=
  ⟨⟨_, save_response_changed env name response prettify st t content ev1 base ext
      hts hc hch hname⟩,
   (sha256hex_hex content).1, (sha256hex_hex content).2, rfl⟩

/-- C8 witness: the concrete archival write of content `[110]` produces the
deterministically named entry and a 64-character lowercase hex digest. -/
theorem c8_witness :
    (∃ evs, save_response
        ⟨fun _ => .jsonDecodeError "e", fun _ => none, ⟨2025, 1, 2, 3, 4, 5⟩, fun _ => ""⟩
        "b.txt" ⟨[110], none⟩ false ⟨[], [], ""⟩ =
      .ok { currentFiles := writeFile [] "b.txt" [110],
            historicalFiles := [] ++
              [(String.mk ['b'] ++ "_" ++ formattedTimestamp ⟨2025, 1, 2, 3, 4, 5⟩ ++ "_"
                  ++ sha256hex [110] ++ "." ++ String.mk ['t', 'x', 't'], [110])],
            readme := subRow "b.txt" (formattedTimestamp ⟨2025, 1, 2, 3, 4, 5⟩) "" } evs)
    ∧ (sha256hex [110]).toList.length = 64
    ∧ (∀ ch ∈ (sha256hex [110]).toList, ch ∈ ("0123456789abcdef").toList)
    ∧ formattedTimestamp ⟨2025, 1, 2, 3, 4, 5⟩
        = replaceColons (String.mk (isoChars ⟨2025, 1, 2, 3, 4, 5⟩)) :=
  c8_archive_entry_naming
    ⟨fun _ => .jsonDecodeError "e", fun _ => none, ⟨2025, 1, 2, 3, 4, 5⟩, fun _ => ""⟩
    "b.txt" ⟨[110], none⟩ false ⟨[], [], ""⟩ none [110] [] ['b'] ['t', 'x', 't']
    rfl rfl (by simp [lookupFile]) rfl

/-- C10: a present `Last-Modified` header whose value `datetime.strptime`
rejects makes `save_response` raise immediately: the result is an error with
the filesystem state unchanged and an empty event trace — no hash was
compared and no file was touched. -/
theorem c10_strptime_error_atomic
    (env : Env) (name : String) (response : Response) (prettify : Bool) (st : FsState)
    (s : String)
    (hm : response.lastModified = some s)
    (hp : env.strptimeLastModified s = none) :
    save_response env name response prettify st
      = .error "ValueError: time data does not match format" st [] := by
  simp [save_response, parseTimestamp, hm, hp]

/-- C10 witness: the header value `"garbage"` does not parse, so the run
raises with the state untouched and no events. -/
theorem c10_witness :
    save_response
        ⟨fun _ => .jsonDecodeError "e", fun _ => none, ⟨2025, 1, 2, 3, 4, 5⟩, fun _ => ""⟩
        "a.txt" ⟨[120], some "garbage"⟩ true ⟨[("a.txt", [120])], [], "r"⟩
      = .error "ValueError: time data does not match format"
          ⟨[("a.txt", [120])], [], "r"⟩ [] :=
  c10_strptime_error_atomic
    ⟨fun _ => .jsonDecodeError "e", fun _ => none, ⟨2025, 1, 2, 3, 4, 5⟩, fun _ => ""⟩
    "a.txt" ⟨[120], some "garbage"⟩ true ⟨[("a.txt", [120])], [], "r"⟩ "garbage" rfl rfl

/-- A README on which the index rewrite is NOT confined to the target
resource's own row: the first row belongs to `a.txt` (its markdown link is
``[`a.txt`](a)``) but its description cell mentions ``[`b.txt`]``. -/
def c6readme : String :=
  "| [\x60a.txt\x60](a) | see [\x60b.txt\x60] also | \x60t0\x60 |\n| [\x60b.txt\x60](b) | y | \x60t0\x60 |"

/-- C6 counterexample: rewriting the index for resource `b.txt` alters the
first row of `c6readme` — a row whose own markdown link is ``[`a.txt`](a)``,
i.e. another resource's row — because that row merely mentions the literal
``[`b.txt`]`` in a description cell.  The conjuncts record that the first
line changed, that its link (after the leading `"| "`) is `a.txt`'s and not
`b.txt`'s, and that `b.txt`'s own row is the second line. -/
theorem c6_counterexample :
    ((splitNl (subRow "b.txt" "2025-01-02T03-04-05" c6readme).toList).getD 0 []
      ≠ (splitNl c6readme.toList).getD 0 [])
    ∧ leadsWith (linkPat "a.txt") (List.drop 2 ((splitNl c6readme.toList).getD 0 [])) = true
    ∧ leadsWith (linkPat "b.txt") (List.drop 2 ((splitNl c6readme.toList).getD 0 [])) = false
    ∧ leadsWith (linkPat "b.txt") (List.drop 2 ((splitNl c6readme.toList).getD 1 [])) = true := by
  decide

/-- C6 (amended): the index rewrite acts line by line; a line on which the
row regex does not fire (no occurrence of the literal ``[`name`]`` followed
by at least two pipes) is byte-for-byte unchanged — whether or not it is
another resource's row — and on a line where the regex first fires at an
occurrence followed by a cell structure `b|c|d` with `c` and `d` pipe-free,
exactly the cell `c` between the last two pipes is replaced by the new
timestamp cell, with everything before it and after the final pipe
unchanged. -/
theorem c6_index_rewrite_frame (name ts : String) (lines : List (List Char))
    (hne : lines ≠ []) (hnl : ∀ l ∈ lines, '\n' ∉ l) :
    subRow name ts (String.mk (joinNl lines))
      = String.mk (joinNl (lines.map (subLine (linkPat name) (cellRepl ts))))
    ∧ (∀ l : List Char, lineFires (linkPat name) l = false →
        subLine (linkPat name) (cellRepl ts) l = l)
    ∧ ∀ a b c d : List Char,
        (∀ i, i < a.length →
          leadsWith (linkPat name)
            (List.drop i (a ++ (linkPat name ++ b ++ '|' :: c ++ '|' :: d))) = false) →
        '|' ∉ c → '|' ∉ d →
        subLine (linkPat name) (cellRepl ts)
            (a ++ (linkPat name ++ b ++ '|' :: c ++ '|' :: d))
          = a ++ (linkPat name ++ b ++ cellRepl ts ++ d) := by
  refine ⟨?_, fun l hl => subLine_of_not_fires _ _ l hl, fun a b c d hskip hc hd => ?_⟩
  · show String.mk (joinNl ((splitNl (String.mk (joinNl lines)).toList).map _)) = _
    rw [show (String.mk (joinNl lines)).toList = joinNl lines from rfl,
        splitNl_joinNl lines hne hnl]
  · have hrest : linkPat name ++ b ++ '|' :: c ++ '|' :: d
        = linkPat name ++ (b ++ '|' :: c ++ '|' :: d) := by
      simp [List.append_assoc]
    rw [hrest] at hskip ⊢
    have hlw : leadsWith (linkPat name) (linkPat name ++ (b ++ '|' :: c ++ '|' :: d))
        = true := leadsWith_self_append _ _
    have hdrop : List.drop (linkPat name).length
        (linkPat name ++ (b ++ '|' :: c ++ '|' :: d)) = b ++ '|' :: c ++ '|' :: d :=
      List.drop_left _ _
    have hmt : matchTail (List.drop (linkPat name).length
        (linkPat name ++ (b ++ '|' :: c ++ '|' :: d))) = some (b, c, d) := by
      rw [hdrop]
      exact matchTail_eq b c d hc hd
    rw [subLine_skip_then_fire (linkPat name) (cellRepl ts) a _ b c d hskip hlw hmt]

/-- C6 witness for the amended claim: a one-line README whose row mentions
no link at all is returned unchanged by the rewrite. -/
theorem c6_witness :
    subRow "b.txt" "T" (String.mk (joinNl [['x', '|', 'y', '|', 'z']]))
      = String.mk (joinNl ([['x', '|', 'y', '|', 'z']].map
          (subLine (linkPat "b.txt") (cellRepl "T")))) :=
  (c6_index_rewrite_frame "b.txt" "T" [['x', '|', 'y', '|', 'z']]
    (by decide) (by decide)).1

/-- C7: a well-known key absent from the parsed external variables makes the
corresponding block of `main` a perfect no-op (no fetch, no write, no event,
no error), and the orchestration collapses to the remaining steps in their
original order; shown for the override key with the engine hypothesis, and
for the texts and figure keys under the corresponding conjunct hypotheses. -/
theorem c7_skip_absent_key
    (env : Env) (fetch : String → Response) (st : FsState)
    (h : lookupVar (parse_external_vars (fetch EXTERNAL_VARS_URL).content)
          (asciiBytes "external.override.texts.txt") = none) :
    (∀ (env' : Env) (fetch' : String → Response) (name : String) (st' : FsState),
        optionalFetchSave env' fetch' none name st' = .ok st' [])
    ∧ mainModel env fetch st =
        seqSave (fetchAndSave env fetch CLIENT_URLS_URL "client_urls.txt" true st) (fun st1 =>
        seqSave (fetchAndSave env fetch EXTERNAL_VARS_URL "external_vars.txt" false st1)
          (fun st2 =>
        seqSave (optionalFetchSave env fetch
            (lookupVar (parse_external_vars (fetch EXTERNAL_VARS_URL).content)
              (asciiBytes "external.texts.txt")) "external_texts.txt" st2) (fun st3 =>
        optionalFetchSave env fetch
            (lookupVar (parse_external_vars (fetch EXTERNAL_VARS_URL).content)
              (asciiBytes "external.figurepartlist.txt")) "figuredata.txt" st3)))
    ∧ (lookupVar (parse_external_vars (fetch EXTERNAL_VARS_URL).content)
          (asciiBytes "external.texts.txt") = none →
        mainModel env fetch st =
          seqSave (fetchAndSave env fetch CLIENT_URLS_URL "client_urls.txt" true st)
            (fun st1 =>
          seqSave (fetchAndSave env fetch EXTERNAL_VARS_URL "external_vars.txt" false st1)
            (fun st2 =>
          seqSave (optionalFetchSave env fetch
              (lookupVar (parse_external_vars (fetch EXTERNAL_VARS_URL).content)
                (asciiBytes "external.figurepartlist.txt")) "figuredata.txt" st2)
            (fun st3 =>
          optionalFetchSave env fetch
              (lookupVar (parse_external_vars (fetch EXTERNAL_VARS_URL).content)
                (asciiBytes "external.override.texts.txt"))
              "external_flash_override_texts.txt" st3))))
    ∧ (lookupVar (parse_external_vars (fetch EXTERNAL_VARS_URL).content)
          (asciiBytes "external.figurepartlist.txt") = none →
        mainModel env fetch st =
          seqSave (fetchAndSave env fetch CLIENT_URLS_URL "client_urls.txt" true st)
            (fun st1 =>
          seqSave (fetchAndSave env fetch EXTERNAL_VARS_URL "external_vars.txt" false st1)
            (fun st2 =>
          seqSave (optionalFetchSave env fetch
              (lookupVar (parse_external_vars (fetch EXTERNAL_VARS_URL).content)
                (asciiBytes "external.texts.txt")) "external_texts.txt" st2) (fun st3 =>
          optionalFetchSave env fetch
              (lookupVar (parse_external_vars (fetch EXTERNAL_VARS_URL).content)
                (asciiBytes "external.override.texts.txt"))
              "external_flash_override_texts.txt" st3)))) := by
  refine ⟨fun _ _ _ _ => rfl, ?_, fun ht => ?_, fun hf => ?_⟩
  · simp only [mainModel, h, optionalFetchSave_none, seqSave_ok_nil_right]
  · simp only [mainModel, ht, optionalFetchSave_none, seqSave_ok_nil_left]
  · simp only [mainModel, hf, optionalFetchSave_none, seqSave_ok_nil_left]

/-- C7 witness: with a fetched external-variables body missing the override
key, the override block is a no-op with no fetch event and no write. -/
theorem c7_witness :
    optionalFetchSave
        ⟨fun _ => .jsonDecodeError "e", fun _ => none, ⟨2025, 1, 2, 3, 4, 5⟩, fun _ => ""⟩
        (fun _ => ⟨asciiBytes "external.texts.txt=http://t\n", none⟩)
        none "external_flash_override_texts.txt" ⟨[], [], ""⟩
      = .ok ⟨[], [], ""⟩ [] :=
  (c7_skip_absent_key
    ⟨fun _ => .jsonDecodeError "e", fun _ => none, ⟨2025, 1, 2, 3, 4, 5⟩, fun _ => ""⟩
    (fun _ => ⟨asciiBytes "external.texts.txt=http://t\n", none⟩)
    ⟨[], [], ""⟩ (by decide)).1
    ⟨fun _ => .jsonDecodeError "e", fun _ => none, ⟨2025, 1, 2, 3, 4, 5⟩, fun _ => ""⟩
    (fun _ => ⟨asciiBytes "external.texts.txt=http://t\n", none⟩)
    "external_flash_override_texts.txt" ⟨[], [], ""⟩

/-- C9: when no line of the README fires the row regex for this resource,
the rewrite is the identity — `subRow` returns the README unchanged for any
timestamp — and the full archival write completes without error, rewriting
the README file with identical bytes (the final `writeReadme` event carries
exactly the old content). -/
theorem c9_row_not_found_noop
    (env : Env) (name : String) (response : Response) (prettify : Bool) (st : FsState)
    (t : Option DT) (content : List Nat) (ev1 : List Event) (base ext : List Char)
    (hts : parseTimestamp env response = .ok t)
    (hc : computeContent env name prettify response.content = .ok (content, ev1))
    (hch : ¬(lookupFile st.currentFiles name).map sha256hex = some (sha256hex content))
    (hname : rsplitDot name.toList = some (base, ext))
    (hnorow : ∀ l ∈ splitNl st.readme.toList, lineFires (linkPat name) l = false) :
    (∀ ts : String, subRow name ts st.readme = st.readme)
    ∧ save_response env name response prettify st =
        .ok { currentFiles := writeFile st.currentFiles name content,
              historicalFiles := st.historicalFiles ++
                [(String.mk base ++ "_" ++ formattedTimestamp (t.getD env.utcnow) ++ "_"
                    ++ sha256hex content ++ "." ++ String.mk ext, response.content)],
              readme := st.readme }
            (ev1 ++ [.printChanged name, .writeCurrent name content,
                     .printSavingCopy (String.mk base ++ "_"
                       ++ formattedTimestamp (t.getD env.utcnow) ++ "_"
                       ++ sha256hex content ++ "." ++ String.mk ext),
                     .writeHistorical (String.mk base ++ "_"
                       ++ formattedTimestamp (t.getD env.utcnow) ++ "_"
                       ++ sha256hex content ++ "." ++ String.mk ext) response.content,
                     .writeReadme st.readme]) := by
  have hid : ∀ ts : String, subRow name ts st.readme = st.readme := by
    intro ts
    show String.mk (joinNl ((splitNl st.readme.toList).map
        (subLine (linkPat name) (cellRepl ts)))) = st.readme
    rw [List.map_congr_left (fun l hl => subLine_of_not_fires (linkPat name)
          (cellRepl ts) l (hnorow l hl)),
        List.map_id', joinNl_splitNl, strMk_toList]
  refine ⟨hid, ?_⟩
  have heq := save_response_changed env name response prettify st t content ev1 base ext
    hts hc hch hname
  rw [hid (formattedTimestamp (t.getD env.utcnow))] at heq
  exact heq

/-- C9 witness: a README holding only another resource's row is rewritten
byte-identically while archiving resource `a.txt`. -/
theorem c9_witness :
    subRow "a.txt" "T" "| [\x60other.txt\x60](o) | x | \x60t\x60 |"
      = "| [\x60other.txt\x60](o) | x | \x60t\x60 |" :=
  (c9_row_not_found_noop
    ⟨fun _ => .jsonDecodeError "e", fun _ => none, ⟨2025, 1, 2, 3, 4, 5⟩, fun _ => ""⟩
    "a.txt" ⟨[110], none⟩ false
    ⟨[], [], "| [\x60other.txt\x60](o) | x | \x60t\x60 |"⟩
    none [110] [] ['a'] ['t', 'x', 't']
    rfl rfl (by simp [lookupFile]) rfl (by decide)).1 "T"
